import Mathlib

/-!
Shallow embedding of the `fseq` reading core
(`src/fseq/reading/seq_encoder.py` and `src/fseq/reading/seq_reader.py`).

Lines are modelled as `List Char` (the reader strips the trailing newline
before any component sees a line).  Python exceptions are modelled by an
explicit error type `PyError` and fallible operations return
`Except PyError _`.  Numeric matrix entries are modelled as `Rat`
(the default GC translation map only produces 0, 1 and 1/2).
-/

/-- A raw input line, newline already stripped. -/
abbrev Line := List Char

/-- Coerces a string literal to the line representation. -/
def str (s : String) : Line := s.data

namespace Fseq

/-- Python exception taxonomy used by the embedded code.  `formatError`,
`formatImplementationError` and `formatUnknown` model the `FormatError`
class hierarchy of `seq_encoder.py`; `notImplementedError`, `keyError`,
`indexError` and `typeError` model the Python builtins. -/
inductive PyError where
  | formatError
  | formatImplementationError
  | formatUnknown
  | notImplementedError
  | keyError
  | indexError
  | typeError
deriving DecidableEq, Repr

/-- Membership of an exception in the `FormatError` class hierarchy:
`FormatImplementationError` and `FormatUnknown` are declared as subclasses
of `FormatError` in `seq_encoder.py`. -/
def PyError.isFormatError : PyError → Bool
  | .formatError => true
  | .formatImplementationError => true
  | .formatUnknown => true
  | _ => false

/-- Python `line.startswith(c)` for a single-character pattern. -/
def startsWithChar (l : Line) (c : Char) : Bool :=
  match l with
  | [] => false
  | a :: _ => a == c

/-- Membership of a character in the `MATCH_NT` alphabet
`^[ATCGN]+$` with `re.IGNORECASE`. -/
def ntChar (c : Char) : Bool :=
  c ∈ ['A', 'T', 'C', 'G', 'N', 'a', 't', 'c', 'g', 'n']

/-- Membership of a character in the `MATCH_NT_S` alphabet
`^[ATCG ]+$` with `re.IGNORECASE` (space allowed, `N` not allowed). -/
def ntsChar (c : Char) : Bool :=
  c ∈ ['A', 'T', 'C', 'G', 'a', 't', 'c', 'g', ' ']

/-- Membership of a character in the `[A-Z]` class with `re.IGNORECASE`;
`Char.isAlpha` is exactly ASCII `[A-Za-z]`. -/
def aaChar (c : Char) : Bool := c.isAlpha

/-- Membership of a character in the `[A-Z ]` class with `re.IGNORECASE`. -/
def aasChar (c : Char) : Bool := c.isAlpha || c == ' '

/-- Full-line match `^[P]+[*]?$` for a character class `P`: a nonempty run
of class characters optionally followed by a single asterisk. -/
def matchClassStar (p : Char → Bool) (l : Line) : Bool :=
  if l.getLast? = some '*' then !l.dropLast.isEmpty && l.dropLast.all p
  else !l.isEmpty && l.all p

/-- Full-line match `^[P]+$` for a character class `P`. -/
def matchClass (p : Char → Bool) (l : Line) : Bool :=
  !l.isEmpty && l.all p

/-- `SeqFormat.MATCH_NT`: `^[ATCGN]+$`, ignorecase. -/
def MATCH_NT (l : Line) : Bool := matchClass ntChar l

/-- `SeqFormat.MATCH_AA`: `^[A-Z]+[*]?$`, ignorecase. -/
def MATCH_AA (l : Line) : Bool := matchClassStar aaChar l

/-- `SeqFormat.MATCH_NT_S`: `^[ATCG ]+$`, ignorecase. -/
def MATCH_NT_S (l : Line) : Bool := matchClass ntsChar l

/-- `SeqFormat.MATCH_AA_S`: `^[A-Z ]+[*]?$`, ignorecase. -/
def MATCH_AA_S (l : Line) : Bool := matchClassStar aasChar l

/-- Mutable cursor state shared by `FastaMultiline` and its subclass
`FastaSingleline` (`_firstLine`, `_prevHeader`, `_giveup`). -/
structure FastaState where
  firstLine : Bool
  prevHeader : Bool
  giveup : Int
deriving DecidableEq, Repr

/-- `FastaMultiline.__init__`: `_firstLine=True`, `_prevHeader=False`,
`_giveup=20`. -/
def FastaState.init : FastaState := ⟨true, false, 20⟩

/-- `SeqFormat.givenUp`: true once the patience counter is negative. -/
def FastaState.givenUp (s : FastaState) : Bool := s.giveup < 0

/-- `FastaMultiline._isHeader`: the line starts with a greater-than sign. -/
def isHeader (l : Line) : Bool := startsWithChar l '>'

/-- Body of `FastaMultiline.expects`, parameterised on whether `_decay`
actually decrements (`FastaSingleline` overrides `_decay` to a no-op, and
the `super()` call inside `FastaSingleline.expects` dispatches to that
no-op).  Returns the truth value together with the mutated state. -/
def fastaExpectsCore (decays : Bool) (s : FastaState) (l : Line) :
    Bool × FastaState :=
  let h := isHeader l
  if s.givenUp then (false, s)
  else if s.firstLine then (h, { s with firstLine := false, prevHeader := h })
  else if h then
    if s.prevHeader then (false, s)
    else (true, { s with prevHeader := true,
                         giveup := if decays then s.giveup - 1 else s.giveup })
  else if MATCH_AA_S l || MATCH_NT_S l then (true, { s with prevHeader := false })
  else (false, s)

/-- `FastaMultiline.expects`. -/
def FastaMultiline.expects (s : FastaState) (l : Line) : Bool × FastaState :=
  fastaExpectsCore true s l

/-- `FastaSingleline.expects`: records the previous `_prevHeader`, runs the
parent method (with the decay override) and rejects when neither the old
nor the new cursor is at a header. -/
def FastaSingleline.expects (s : FastaState) (l : Line) : Bool × FastaState :=
  let prevStatus := s.prevHeader
  let r := fastaExpectsCore false s l
  if !prevStatus && !r.2.prevHeader then (false, r.2) else r

/-- Mutable cursor state of `FastQ` (`_mod`, `_giveup`,
`_expectedQlenght`). -/
structure FastQState where
  mod : Nat
  giveup : Int
  expectedQlen : Option Nat
deriving DecidableEq, Repr

/-- `FastQ.__init__`: `_mod=0`, `_giveup=20`, `_expectedQlenght=None`. -/
def FastQState.init : FastQState := ⟨0, 20, none⟩

/-- `SeqFormat.givenUp` for the FastQ state. -/
def FastQState.givenUp (s : FastQState) : Bool := s.giveup < 0

/-- `FastQ.expects`: cycles through the four positional roles; the patience
counter decays once per header line and once per accepted quality line
(`_qualExpect`); the quality line must have the length recorded from the
preceding sequence line.  On the `givenUp` branch the method returns before
`self._next()` runs, so the state is unchanged there. -/
def FastQ.expects (s : FastQState) (l : Line) : Bool × FastQState :=
  if s.givenUp then (false, s)
  else if s.mod = 0 then
    (startsWithChar l '@', { s with mod := 1, giveup := s.giveup - 1 })
  else if s.mod = 1 then
    (MATCH_AA l || MATCH_NT l,
     { s with mod := 2, expectedQlen := some l.length })
  else if s.mod = 2 then
    (startsWithChar l '+', { s with mod := 3 })
  else
    if s.expectedQlen = some l.length then
      (true, { s with mod := 0, giveup := s.giveup - 1 })
    else (false, { s with mod := 0 })

/-- One live format-candidate instance: the constructor identifies the
class (`FastaSingleline`, `FastaMultiline`, `FastQ`) and carries the
mutable cursor state of that instance. -/
inductive Cand where
  | fastaSingleline (s : FastaState)
  | fastaMultiline (s : FastaState)
  | fastQ (s : FastQState)
deriving DecidableEq, Repr

namespace Cand

/-- `SeqFormatDetector.FORMATS = [FastaSingleline, FastaMultiline, FastQ]`,
each freshly constructed. -/
def initialFormats : List Cand :=
  [.fastaSingleline .init, .fastaMultiline .init, .fastQ .init]

/-- Dynamic dispatch of `expects`: runs the class-specific method and
returns the truth value together with the mutated instance. -/
def expects : Cand → Line → Bool × Cand
  | .fastaSingleline s, l =>
      let r := FastaSingleline.expects s l
      (r.1, .fastaSingleline r.2)
  | .fastaMultiline s, l =>
      let r := FastaMultiline.expects s l
      (r.1, .fastaMultiline r.2)
  | .fastQ s, l =>
      let r := FastQ.expects s l
      (r.1, .fastQ r.2)

/-- `SeqFormat.givenUp` dispatched over the candidate classes. -/
def givenUp : Cand → Bool
  | .fastaSingleline s => s.givenUp
  | .fastaMultiline s => s.givenUp
  | .fastQ s => s.givenUp

/-- The class-level `name` property. -/
def name : Cand → String
  | .fastaSingleline _ => "FASTA:SINGLELINE"
  | .fastaMultiline _ => "FASTA:MULTILINE"
  | .fastQ _ => "FASTQ"

/-- The class-level `itemSize` property: 2 for single-line FASTA, `None`
for multi-line FASTA (inherited from the base), 4 for FASTQ. -/
def itemSize : Cand → Option Nat
  | .fastaSingleline _ => some 2
  | .fastaMultiline _ => none
  | .fastQ _ => some 4

/-- The class-level `hasSequence` property (`None` on the base is never
reached: all three classes override it to `True`). -/
def hasSequence : Cand → Bool
  | _ => true

/-- The class-level `hasQuality` property. -/
def hasQuality : Cand → Bool
  | .fastQ _ => true
  | _ => false

/-- The class attribute `HEADER_LINE` (0 for all three classes). -/
def HEADER_LINE : Cand → Nat
  | _ => 0

/-- The class attribute `SEQUENCE_LINE` (1, -1 and 1 respectively; the
value is a Python index into the record, negative meaning from the end). -/
def SEQUENCE_LINE : Cand → Option Int
  | .fastaSingleline _ => some 1
  | .fastaMultiline _ => some (-1)
  | .fastQ _ => some 1

/-- The class attribute `QUALITY_LINE` (`None`, `None`, 3). -/
def QUALITY_LINE : Cand → Option Nat
  | .fastQ _ => some 3
  | _ => none

/-- The `qualityEncoding` property: none of the three classes overrides the
base, which returns `None`. -/
def qualityEncoding : Cand → Option (List (Char × Rat))
  | _ => none

end Cand

/-- `SeqFormat.expects` on the abstract base class raises
`FormatImplementationError`. -/
def SeqFormat.expectsBase : Except PyError Bool :=
  .error .formatImplementationError

/-- State of a `SeqFormatDetector` instance.  `format = none` is the
*detecting* state (`SeqFormatDetector.detecting`). -/
structure SeqFormatDetector where
  safetyCheck : Option Nat
  format : Option String
  itemSize : Option Nat
  hasSequence : Option Bool
  hasQuality : Option Bool
  qualityEncoding : Option (List (Char × Rat))
  qualityLine : Option Nat
  headerLine : Option Nat
  sequenceLine : Option Int
  possibleFormats : List Cand
deriving DecidableEq, Repr

namespace SeqFormatDetector

/-- `SeqFormatDetector.detecting`: true while no format has been
committed. -/
def detecting (d : SeqFormatDetector) : Bool := d.format.isNone

/-- A detector as left by `__init__` before the candidate list is chosen:
every field `None`. -/
def blank : SeqFormatDetector :=
  ⟨none, none, none, none, none, none, none, none, none, []⟩

/-- `SeqFormatDetector.__init__` without `forceFormat`: all known formats
are live candidates. -/
def init : SeqFormatDetector :=
  { blank with possibleFormats := Cand.initialFormats }

/-- `SeqFormatDetector._testFormatInformative`: raises `FormatError` when
the sole candidate has no fixed item size or neither sequence nor quality
data; otherwise returns `True`. -/
def testFormatInformative (f : Cand) : Except PyError Bool :=
  if f.itemSize = none then .error .formatError
  else if !f.hasSequence && !f.hasQuality then .error .formatError
  else .ok true

/-- `SeqFormatDetector._setFormat`: initialises the settling countdown on
first arrival (to the candidate `itemSize`, or 0 when unknown), decrements
it on later visits while positive, and then — unconditionally — validates
informativeness and commits the settled format. -/
def setFormat (d : SeqFormatDetector) : Except PyError SeqFormatDetector :=
  match d.possibleFormats with
  | [] => .error .indexError
  | f :: _ =>
    let sc : Nat :=
      match d.safetyCheck with
      | none => match f.itemSize with
                | none => 0
                | some n => n
      | some k => if 0 < k then k - 1 else k
    match testFormatInformative f with
    | .error e => .error e
    | .ok _ =>
      .ok { d with
            safetyCheck := some sc,
            headerLine := some f.HEADER_LINE,
            qualityLine := f.QUALITY_LINE,
            sequenceLine := f.SEQUENCE_LINE,
            itemSize := f.itemSize,
            hasSequence := some f.hasSequence,
            hasQuality := some f.hasQuality,
            qualityEncoding := f.qualityEncoding,
            format := some f.name }

/-- `SeqFormatDetector.__init__` with a `forceFormat` candidate: the
candidate list is the singleton and `_setFormat` runs immediately. -/
def initForced (f : Cand) : Except PyError SeqFormatDetector :=
  setFormat { blank with possibleFormats := [f] }

/-- The list-comprehension filter in `feed`: every candidate is fed the
line (mutating it) and only those whose `expects` returned true are
kept. -/
def filterFormats (cs : List Cand) (l : Line) : List Cand :=
  cs.filterMap fun f =>
    let r := f.expects l
    if r.1 then some r.2 else none

/-- `SeqFormatDetector.feed`: filters the live candidates by
`expects(line)`; zero survivors raise `FormatUnknown`; exactly one
survivor runs `_setFormat`. -/
def feed (d : SeqFormatDetector) (l : Line) : Except PyError SeqFormatDetector :=
  let kept := filterFormats d.possibleFormats l
  if kept.length = 0 then .error .formatUnknown
  else if kept.length = 1 then setFormat { d with possibleFormats := kept }
  else .ok { d with possibleFormats := kept }

/-- Feeds a list of lines in order, stopping at the first exception. -/
def feedAll (d : SeqFormatDetector) : List Line → Except PyError SeqFormatDetector
  | [] => .ok d
  | l :: ls =>
    match d.feed l with
    | .error e => .error e
    | .ok d2 => d2.feedAll ls

/-- `SeqFormatDetector.compatible`: raises while detecting, otherwise
checks that each capability the encoder uses is present. -/
def compatible (d : SeqFormatDetector) (useSequence useQuality : Bool) :
    Except PyError Bool :=
  if d.detecting then .error .formatError
  else .ok ((!useSequence || d.hasSequence.getD false) &&
            (!useQuality || d.hasQuality.getD false))

end SeqFormatDetector

/-- A symbol translation map (Python dict from characters to numbers),
looked up with `__getitem__`; a missing key raises `KeyError`. -/
abbrev QMap := List (Char × Rat)

/-- Python list indexing `xs[i]` with negative indices counting from the
end; out of range gives `none` (an `IndexError`). -/
def pyGet {α : Type} (xs : List α) (i : Int) : Option α :=
  if 0 ≤ i then xs[i.toNat]?
  else
    let j := (xs.length : Int) + i
    if 0 ≤ j then xs[j.toNat]? else none

/-- The default `sequenceEncoding` of `SeqEncoderGC`:
G and C map to 1, A and T to 0, space and N to 1/2. -/
def defaultGCMap : QMap :=
  [('G', 1), ('C', 1), ('A', 0), ('T', 0), (' ', 1/2), ('N', 1/2)]

/-- The list comprehension `[e[char] for char in seq]` of
`SeqEncoderGC.parse`: translates every character of the sequence line,
raising `KeyError` at the first unmapped symbol. -/
def translate (m : QMap) : Line → Except PyError (List Rat)
  | [] => .ok []
  | c :: cs =>
    match m.lookup c with
    | none => .error .keyError
    | some v =>
      match translate m cs with
      | .error e => .error e
      | .ok vs => .ok (v :: vs)

/-- The slice assignment `out[outindex][:len(d)] = d[:width]` of
`SeqEncoderGC.parse`, acting on one row of width `row.length`: the
translated values `d` overwrite the row left-aligned (truncated to the row
width) and the rest of the row keeps its previous contents. -/
def writeRow (d row : List Rat) : List Rat :=
  d.take row.length ++ row.drop d.length

/-- `SeqEncoderGC.parse` acting on one output row: reads the sequence line
of the record via the bound `_sequenceLine` index, translates every one of
its characters, and performs the left-aligned slice assignment
`writeRow`. -/
def SeqEncoderGC.parseRow (m : QMap) (seqLine : Option Int)
    (lines : List Line) (row : List Rat) : Except PyError (List Rat) :=
  match seqLine with
  | none => .error .typeError
  | some i =>
    match pyGet lines i with
    | none => .error .indexError
    | some s =>
      match translate m s with
      | .error e => .error e
      | .ok d => .ok (writeRow d row)

/-- `SeqEncoder.parse` on the un-overridden base class raises the Python
builtin `NotImplementedError`. -/
def SeqEncoder.parseBase : Except PyError Unit := .error .notImplementedError

/-- State of a `SeqEncoder` instance (the fields assigned in `__init__`
and `reset`). -/
structure SeqEncoder where
  useSequence : Bool
  useQuality : Bool
  sequenceEncoding : Option QMap
  qualityEncoding : Option QMap
  format : Option SeqFormatDetector
  formatCompatible : Bool
  sequenceLine : Option Int
  qualityLine : Option Nat
  headerLine : Option Nat
  detectFeed : List Line
deriving DecidableEq, Repr

namespace SeqEncoder

/-- `SeqEncoder.initiated`: a format is present and compatible. -/
def initiated (e : SeqEncoder) : Bool := e.format.isSome && e.formatCompatible

/-- The `format` property setter applied to a `SeqFormatDetector` value:
while the detector is still detecting only the reference and the cleared
line roles are stored; once settled, compatibility is enforced, the line
roles are copied, and a quality-encoding hint from the format is adopted
only when the encoder has none of its own (otherwise a warning is issued
and the existing map is kept). -/
def setFormat (e : SeqEncoder) (val : SeqFormatDetector) :
    Except PyError SeqEncoder :=
  if val.detecting then
    .ok { e with format := some val, sequenceLine := none,
                 qualityLine := none, headerLine := none }
  else
    match val.compatible e.useSequence e.useQuality with
    | .error err => .error err
    | .ok c =>
      if !c then .error .formatError
      else
        match val.qualityEncoding with
        | none =>
          .ok { e with format := some val,
                       sequenceLine := val.sequenceLine,
                       qualityLine := val.qualityLine,
                       headerLine := val.headerLine,
                       formatCompatible := true }
        | some enc =>
          if e.qualityEncoding.isNone then
            .ok { e with format := some val,
                         sequenceLine := val.sequenceLine,
                         qualityLine := val.qualityLine,
                         headerLine := val.headerLine,
                         qualityEncoding := some enc,
                         formatCompatible := true }
          else
            .ok { e with format := some val,
                         sequenceLine := val.sequenceLine,
                         qualityLine := val.qualityLine,
                         headerLine := val.headerLine,
                         formatCompatible := true }

end SeqEncoder

/-- The polling loop of `SeqEncoder.detectFormat`: pops buffered lines into
a fresh detector until it settles.  When the buffered lines run out while
the detector is still detecting, the Python loop sleeps forever waiting
for more input — modelled as `none`. -/
def detectLoop (f : SeqFormatDetector) :
    List Line → Option (Except PyError (SeqFormatDetector × List Line))
  | [] => none
  | l :: rest =>
    match f.feed l with
    | .error e => some (.error e)
    | .ok f2 =>
      if f2.detecting then detectLoop f2 rest else some (.ok (f2, rest))

/-- `SeqEncoder.detectFormat`: returns immediately when initiated;
otherwise runs a fresh `SeqFormatDetector` over the buffered lines, copies
the line roles, clears the encoder quality encoding (the code comment says
the clearing merely suppresses the overwrite warning, but it discards the
encoder map), and assigns the settled detector through the `format`
setter. -/
def SeqEncoder.detectFormat (e : SeqEncoder) :
    Option (Except PyError SeqEncoder) :=
  if e.initiated then some (.ok e)
  else
    match detectLoop .init e.detectFeed with
    | none => none
    | some (.error err) => some (.error err)
    | some (.ok (f, rest)) =>
      let e1 := { e with sequenceLine := f.sequenceLine,
                         qualityLine := f.qualityLine,
                         headerLine := f.headerLine,
                         detectFeed := rest,
                         qualityEncoding := none }
      some (e1.setFormat f)

/-- Fuel-indexed body of the chunking loop (the fuel is an upper bound on
the number of remaining lines, so it never runs out). -/
def chunkAux (n : Nat) : Nat → List Line → List (List Line)
  | 0, _ => []
  | fuel + 1, ls =>
    if 0 < n ∧ n ≤ ls.length then ls.take n :: chunkAux n fuel (ls.drop n)
    else []

/-- The chunking loop of `SeqReader.next`: consecutive groups of exactly
`n` lines; a trailing group shorter than `n` is never emitted. -/
def chunkRecords (n : Nat) (ls : List Line) : List (List Line) :=
  chunkAux n ls.length ls

/-- The dispatch-and-grow loop of `SeqReader.next`: each record is written
at the next row index; when the index reaches the buffer capacity, the
buffer first grows by `cap` fresh zero rows (`np.concatenate` with a new
constructor-filled block); at the end the buffer is truncated to the rows
actually written (`D[:workingIndex]`). -/
def readerLoop (m : QMap) (seqLine : Option Int) (w cap : Nat) :
    List (List Line) → List (List Rat) → Nat → Except PyError (List (List Rat))
  | [], buf, idx => .ok (buf.take idx)
  | r :: rest, buf, idx =>
    let buf2 := if idx = buf.length
                then buf ++ List.replicate cap (List.replicate w 0)
                else buf
    match SeqEncoderGC.parseRow m seqLine r (buf2.getD idx []) with
    | .error e => .error e
    | .ok row => readerLoop m seqLine w cap rest (buf2.set idx row) (idx + 1)

/-- The record-processing pipeline of `SeqReader.next` for a source whose
format has settled with record size `n`: all stored lines are chunked into
records, each record is parsed by `SeqEncoderGC.parse` into the zero-filled
buffer (initial capacity `cap` rows of width `w`, grown by `cap` on
demand), and the buffer truncated to the completed rows is returned. -/
def seqReaderNext (m : QMap) (seqLine : Option Int) (n w cap : Nat)
    (lines : List Line) : Except PyError (List (List Rat)) :=
  readerLoop m seqLine w cap (chunkRecords n lines)
    (List.replicate cap (List.replicate w 0)) 0

/-- Replays a list of lines through one candidate instance in isolation,
collecting the successive `expects` results. -/
def runExpects (c : Cand) : List Line → List Bool × Cand
  | [] => ([], c)
  | l :: ls =>
    let r := c.expects l
    let rest := runExpects r.2 ls
    (r.1 :: rest.1, rest.2)

/-- The six-line source of the end-to-end property: three single-line
FASTA records. -/
def c1Lines : List Line :=
  [str ">h1", str "ACGT", str ">h2", str "GGCC", str ">h3", str "AATT"]

/-- One well-formed single-line FASTA record (header line and sequence
line). -/
def fastaRec : List Line := [str ">h", str "ACGT"]

/-- The lines of `n` consecutive well-formed single-line FASTA records. -/
def fastaLines (n : Nat) : List Line := (List.replicate n fastaRec).flatten

/-- Parses every record against a fresh zero-filled row of width `w` (the
net effect of one worker per record writing into a constructor-fresh
buffer row). -/
def parseAll (m : QMap) (seqLine : Option Int) (w : Nat) :
    List (List Line) → Except PyError (List (List Rat))
  | [] => .ok []
  | r :: rest =>
    match SeqEncoderGC.parseRow m seqLine r (List.replicate w 0) with
    | .error e => .error e
    | .ok row =>
      match parseAll m seqLine w rest with
      | .error e => .error e
      | .ok rows => .ok (row :: rows)

theorem chunkAux_length (n : Nat) (hn : 0 < n) :
    ∀ (fuel : Nat) (ls : List Line), ls.length ≤ fuel →
      (chunkAux n fuel ls).length = ls.length / n := by
  intro fuel
  induction fuel with
  | zero =>
    intro ls h
    have h0 : ls.length = 0 := Nat.le_zero.mp h
    simp [chunkAux, h0]
  | succ fuel ih =>
    intro ls h
    by_cases hle : n ≤ ls.length
    · have hrec := ih (ls.drop n) (by simp only [List.length_drop]; omega)
      simp only [chunkAux, if_pos (And.intro hn hle), List.length_cons, hrec,
        List.length_drop]
      rw [Nat.div_eq_sub_div hn hle]
    · have hlt : ls.length < n := Nat.lt_of_not_le hle
      simp only [chunkAux, List.length_nil]
      rw [if_neg (by intro hc; exact hle hc.2)]
      simp [Nat.div_eq_of_lt hlt]

theorem chunkAux_get (n : Nat) (hn : 0 < n) :
    ∀ (fuel : Nat) (ls : List Line) (i : Nat), ls.length ≤ fuel →
      ∀ (h : i < (chunkAux n fuel ls).length),
        (chunkAux n fuel ls).get ⟨i, h⟩ = (ls.drop (i * n)).take n := by
  intro fuel
  induction fuel with
  | zero =>
    intro ls i hlen h
    simp [chunkAux] at h
  | succ fuel ih =>
    intro ls i hlen h
    by_cases hle : n ≤ ls.length
    · cases i with
      | zero =>
        simp [chunkAux, if_pos (And.intro hn hle)]
      | succ j =>
        have hlen2 : (ls.drop n).length ≤ fuel := by
          simp only [List.length_drop]; omega
        have h2 : j < (chunkAux n fuel (ls.drop n)).length := by
          simp only [chunkAux, if_pos (And.intro hn hle), List.length_cons] at h
          omega
        have hrec := ih (ls.drop n) j hlen2 h2
        have hstep :
            (chunkAux n (fuel + 1) ls).get ⟨j + 1, h⟩ =
              (chunkAux n fuel (ls.drop n)).get ⟨j, h2⟩ := by
          simp [chunkAux, if_pos (And.intro hn hle)]
        rw [hstep, hrec, List.drop_drop]
        have harith : n + j * n = (j + 1) * n := by ring
        rw [harith]
    · exfalso
      simp only [chunkAux] at h
      rw [if_neg (by intro hc; exact hle hc.2)] at h
      simp at h

theorem chunkRecords_length (n : Nat) (hn : 0 < n) (ls : List Line) :
    (chunkRecords n ls).length = ls.length / n :=
  chunkAux_length n hn ls.length ls le_rfl

theorem chunkRecords_get (n : Nat) (hn : 0 < n) (ls : List Line) (i : Nat)
    (h : i < (chunkRecords n ls).length) :
    (chunkRecords n ls).get ⟨i, h⟩ = (ls.drop (i * n)).take n :=
  chunkAux_get n hn ls.length ls i le_rfl h

theorem parseAll_ok_length (m : QMap) (q : Option Int) (w : Nat) :
    ∀ (cs : List (List Line)) (rows : List (List Rat)),
      parseAll m q w cs = .ok rows → rows.length = cs.length := by
  intro cs
  induction cs with
  | nil =>
    intro rows h
    simp only [parseAll] at h
    cases h
    rfl
  | cons c cs ih =>
    intro rows h
    simp only [parseAll] at h
    cases hr : SeqEncoderGC.parseRow m q c (List.replicate w 0) with
    | error e => rw [hr] at h; cases h
    | ok row =>
      rw [hr] at h
      cases hrest : parseAll m q w cs with
      | error e => rw [hrest] at h; cases h
      | ok rows2 =>
        rw [hrest] at h
        cases h
        simp [ih rows2 hrest]

theorem parseAll_ok_get (m : QMap) (q : Option Int) (w : Nat) :
    ∀ (cs : List (List Line)) (rows : List (List Rat)),
      parseAll m q w cs = .ok rows →
      ∀ (i : Nat) (hi : i < cs.length) (hi2 : i < rows.length),
        SeqEncoderGC.parseRow m q (cs.get ⟨i, hi⟩) (List.replicate w 0) =
          .ok (rows.get ⟨i, hi2⟩) := by
  intro cs
  induction cs with
  | nil => intro rows h i hi; exact absurd hi (by simp)
  | cons c cs ih =>
    intro rows h i hi hi2
    simp only [parseAll] at h
    cases hr : SeqEncoderGC.parseRow m q c (List.replicate w 0) with
    | error e => rw [hr] at h; cases h
    | ok row =>
      rw [hr] at h
      cases hrest : parseAll m q w cs with
      | error e => rw [hrest] at h; cases h
      | ok rows2 =>
        rw [hrest] at h
        cases h
        cases i with
        | zero => simpa using hr
        | succ j =>
          have hj : j < cs.length := by simpa using hi
          have hj2 : j < rows2.length := by simpa using hi2
          simpa using ih rows2 hrest j hj hj2

theorem readerLoop_eq (m : QMap) (q : Option Int) (w cap : Nat)
    (hcap : 0 < cap) :
    ∀ (cs : List (List Line)) (buf : List (List Rat)) (idx : Nat),
      idx ≤ buf.length →
      (∀ r ∈ buf.drop idx, r = List.replicate w 0) →
      readerLoop m q w cap cs buf idx =
        match parseAll m q w cs with
        | .error e => .error e
        | .ok rows => .ok (buf.take idx ++ rows) := by
  intro cs
  induction cs with
  | nil =>
    intro buf idx hle hzero
    simp [readerLoop, parseAll]
  | cons c cs ih =>
    intro buf idx hle hzero
    have hbuf2 :
        ∃ buf2, (if idx = buf.length
                 then buf ++ List.replicate cap (List.replicate w 0)
                 else buf) = buf2 ∧
          idx < buf2.length ∧
          (∀ r ∈ buf2.drop idx, r = List.replicate w 0) ∧
          buf2.take idx = buf.take idx := by
      by_cases hgrow : idx = buf.length
      · refine ⟨buf ++ List.replicate cap (List.replicate w 0),
          by rw [if_pos hgrow], ?_, ?_, ?_⟩
        · simp only [List.length_append, List.length_replicate]
          omega
        · intro r hr
          rw [hgrow, List.drop_left] at hr
          exact List.eq_of_mem_replicate hr
        · rw [List.take_append_of_le_length (Nat.le_of_eq hgrow)]
      · exact ⟨buf, by rw [if_neg hgrow], Nat.lt_of_le_of_ne hle hgrow,
          hzero, rfl⟩
    obtain ⟨buf2, hb2, hlt, hz2, htk⟩ := hbuf2
    have hmem : buf2[idx] ∈ buf2.drop idx := by
      refine List.getElem?_mem (n := 0) ?_
      rw [List.getElem?_drop]
      simp [List.getElem?_eq_getElem (show idx + 0 < buf2.length from hlt)]
    have hget : buf2.getD idx [] = List.replicate w 0 := by
      rw [List.getD_eq_getElem?_getD, List.getElem?_eq_getElem hlt]
      simpa using hz2 _ hmem
    simp only [readerLoop]
    rw [hb2, hget]
    cases hr : SeqEncoderGC.parseRow m q c (List.replicate w 0) with
    | error e =>
      simp only [parseAll, hr]
    | ok row =>
      simp only [parseAll, hr]
      have hset_le : idx + 1 ≤ (buf2.set idx row).length := by
        rw [List.length_set]; omega
      have hset_zero : ∀ r ∈ (buf2.set idx row).drop (idx + 1),
          r = List.replicate w 0 := by
        intro r hrr
        rw [List.drop_set_of_lt _ _ (Nat.lt_succ_self idx)] at hrr
        refine hz2 r (List.mem_of_mem_drop (n := 1) ?_)
        rw [List.drop_drop]
        exact hrr
      rw [ih (buf2.set idx row) (idx + 1) hset_le hset_zero]
      have htake : (buf2.set idx row).take (idx + 1) = buf.take idx ++ [row] := by
        rw [List.set_eq_take_append_cons_drop, if_pos hlt,
          List.take_append_eq_append_take,
          List.take_of_length_le
            (by rw [List.length_take_of_le (Nat.le_of_lt hlt)]; omega)]
        rw [List.length_take_of_le (Nat.le_of_lt hlt)]
        simp [htk]
      cases hrest : parseAll m q w cs with
      | error e => rfl
      | ok rows =>
        simp only []
        rw [htake, List.append_assoc]
        rfl

theorem setFormat_ne_formatUnknown (d : SeqFormatDetector) :
    d.setFormat ≠ .error .formatUnknown := by
  unfold SeqFormatDetector.setFormat
  cases d.possibleFormats with
  | nil => simp
  | cons f fs =>
    cases hti : SeqFormatDetector.testFormatInformative f with
    | error e =>
      have he : e = .formatError := by
        unfold SeqFormatDetector.testFormatInformative at hti
        split_ifs at hti <;> simp_all
      simp [hti, he]
    | ok b => simp [hti]

theorem feedAll_append (d : SeqFormatDetector) (xs ys : List Line) :
    d.feedAll (xs ++ ys) =
      match d.feedAll xs with
      | .error e => .error e
      | .ok d2 => d2.feedAll ys := by
  induction xs generalizing d with
  | nil => simp [SeqFormatDetector.feedAll]
  | cons x xs ih =>
    simp only [List.cons_append, SeqFormatDetector.feedAll]
    cases d.feed x with
    | error e => rfl
    | ok d2 => exact ih d2

/-- The terminal detector state reached on a long run of well-formed
single-line FASTA records (from the 23rd record on it is a fixed
point). -/
def settledSingleline : SeqFormatDetector :=
  { safetyCheck := some 0, format := some "FASTA:SINGLELINE",
    itemSize := some 2, hasSequence := some true, hasQuality := some false,
    qualityEncoding := none, qualityLine := none, headerLine := some 0,
    sequenceLine := some 1,
    possibleFormats := [.fastaSingleline ⟨false, false, 20⟩] }

theorem feedAll_fasta23 :
    SeqFormatDetector.init.feedAll (fastaLines 23) = .ok settledSingleline := by
  rfl

theorem feedAll_fastaRec_fix :
    settledSingleline.feedAll fastaRec = .ok settledSingleline := by
  rfl

theorem fastaLines_succ (n : Nat) :
    fastaLines (n + 1) = fastaLines n ++ fastaRec := by
  simp [fastaLines, List.replicate_succ']

theorem feedAll_fasta_ge23 (n : Nat) (hn : 23 ≤ n) :
    SeqFormatDetector.init.feedAll (fastaLines n) = .ok settledSingleline := by
  induction n, hn using Nat.le_induction with
  | base => exact feedAll_fasta23
  | succ n hn ih =>
    rw [fastaLines_succ, feedAll_append, ih]
    exact feedAll_fastaRec_fix

/-- C1: the spec asserts that reading the six-line source
`>h1 / ACGT / >h2 / GGCC / >h3 / AATT` with `dataWidth=4` and the default
GC map terminates with the matrix `[[0,1,1,0],[1,1,1,1],[0,0,0,0]]`.  On
the code, after all six lines both FASTA candidates are still live, so the
detector never settles and `SeqReader.next` spins forever; the second
conjunct shows that the record-processing pipeline would indeed produce
exactly the claimed matrix had the single-line format (record size 2,
sequence line 1) been settled. -/
theorem c1_end_to_end_hangs :
    (SeqFormatDetector.init.feedAll c1Lines).map
        (fun d => (d.detecting, d.possibleFormats.length)) = .ok (true, 2) ∧
    seqReaderNext defaultGCMap (some 1) 2 4 3 c1Lines =
      .ok [[0, 1, 1, 0], [1, 1, 1, 1], [0, 0, 0, 0]] :=
  ⟨rfl, rfl⟩

/-- C2: the spec asserts that once the live candidate set first shrinks to
one survivor the detector stays in the detecting state for `itemSize`
further feeds.  On the code, the single line `@x` leaves exactly one
survivor (FastQ, item size 4); `_setFormat` initialises the countdown to 4
but commits the format on that very call, so `detecting` is already false
with the countdown still at its initial value. -/
theorem c2_countdown_never_gates :
    (SeqFormatDetector.filterFormats Cand.initialFormats (str "@x")).length
      = 1 ∧
    (SeqFormatDetector.init.feed (str "@x")).map
        (fun d => (d.detecting, d.format, d.safetyCheck)) =
      .ok (false, some "FASTQ", some 4) :=
  ⟨rfl, rfl⟩

/-- C4: `feed` raises `FormatUnknown` exactly when filtering the live
candidates by `expects(line)` leaves none (the one-survivor branch can
only raise the distinct `FormatError`), and a fresh detector fed the
single line `1234` raises `FormatUnknown` on that first feed. -/
theorem c4_feed_formatUnknown_iff :
    (∀ (d : SeqFormatDetector) (l : Line),
        d.feed l = .error .formatUnknown ↔
          (SeqFormatDetector.filterFormats d.possibleFormats l).length = 0) ∧
    SeqFormatDetector.init.feed (str "1234") = .error .formatUnknown := by
  constructor
  · intro d l
    unfold SeqFormatDetector.feed
    by_cases h0 : (SeqFormatDetector.filterFormats d.possibleFormats l).length = 0
    · simp [h0]
    · rw [if_neg h0]
      by_cases h1 :
          (SeqFormatDetector.filterFormats d.possibleFormats l).length = 1
      · rw [if_pos h1]
        constructor
        · intro hc
          exact absurd hc (setFormat_ne_formatUnknown _)
        · intro hc
          exact absurd hc h0
      · rw [if_neg h1]
        simp [h0]
  · rfl

/-- C5 counterexample: after the lines of exactly 21 consecutive
well-formed single-line FASTA records (an instance of "at least 21"), the
multi-line candidate has not given up (its patience counter is exactly 0,
not yet negative) and the detector is still detecting — the claim fails at
21. -/
theorem c5_fasta21_unsettled :
    (SeqFormatDetector.init.feedAll (fastaLines 21)).map
        (fun d => (d.detecting, d.possibleFormats.map Cand.givenUp)) =
      .ok (true, [false, false]) :=
  rfl

/-- C5 amended: after the lines of at least 22 consecutive well-formed
single-line FASTA records the detector has settled on the single-line
FASTA format, and during that run (after line 43, the 22nd header) the
multi-line candidate `givenUp` flag is true while the candidate is still
live — one record more than the 21 the claim states. -/
theorem c5_fasta_decay_settles (n : Nat) (hn : 22 ≤ n) :
    (SeqFormatDetector.init.feedAll (fastaLines n)).map
        SeqFormatDetector.format = .ok (some "FASTA:SINGLELINE") ∧
    (SeqFormatDetector.init.feedAll ((fastaLines 22).take 43)).map
        (fun d => d.possibleFormats.map Cand.givenUp) = .ok [false, true] := by
  constructor
  · rcases Nat.eq_or_lt_of_le hn with h | h
    · rw [← h]
      rfl
    · rw [feedAll_fasta_ge23 n h]
      rfl
  · rfl

/-- C5 witness: the amended statement instantiated at 25 records. -/
theorem c5_fasta_decay_settles_witness :
    22 ≤ 25 ∧
    ((SeqFormatDetector.init.feedAll (fastaLines 25)).map
        SeqFormatDetector.format = .ok (some "FASTA:SINGLELINE") ∧
     (SeqFormatDetector.init.feedAll ((fastaLines 22).take 43)).map
        (fun d => d.possibleFormats.map Cand.givenUp) = .ok [false, true]) :=
  ⟨by omega, c5_fasta_decay_settles 25 (by omega)⟩

/-- C3: whenever the pipeline of `SeqReader.next` returns a matrix for a
settled record size `n > 0`, the matrix has exactly
`total lines / n` rows (no partial trailing record, unused preallocated
capacity of the grown buffer discarded by the final truncation), and row
`i` is exactly the parse of the `i`-th group of `n` consecutive input
lines into a fresh zero row. -/
theorem c3_reader_chunking_exact (m : QMap) (q : Option Int)
    (n w cap : Nat) (lines : List Line) (M : List (List Rat))
    (hn : 0 < n) (hcap : 0 < cap)
    (hM : seqReaderNext m q n w cap lines = .ok M) :
    M.length = lines.length / n ∧
    ∀ (i : Nat) (hi : i < M.length),
      SeqEncoderGC.parseRow m q ((lines.drop (i * n)).take n)
          (List.replicate w 0) = .ok (M.get ⟨i, hi⟩) := by
  have hzero : ∀ r ∈ (List.replicate cap (List.replicate w (0 : Rat))).drop 0,
      r = List.replicate w (0 : Rat) := by
    intro r hr
    rw [List.drop_zero] at hr
    exact List.eq_of_mem_replicate hr
  have hrl := readerLoop_eq m q w cap hcap (chunkRecords n lines)
      (List.replicate cap (List.replicate w 0)) 0 (Nat.zero_le _) hzero
  rw [seqReaderNext, hrl] at hM
  cases hpa : parseAll m q w (chunkRecords n lines) with
  | error e =>
    rw [hpa] at hM
    cases hM
  | ok rows =>
    rw [hpa] at hM
    simp only [List.take_zero, List.nil_append] at hM
    cases hM
    have hlen : M.length = (chunkRecords n lines).length :=
      parseAll_ok_length m q w _ _ hpa
    constructor
    · rw [hlen, chunkRecords_length n hn lines]
    · intro i hi
      have hi2 : i < (chunkRecords n lines).length := by omega
      have hres := parseAll_ok_get m q w _ _ hpa i hi2 hi
      rw [chunkRecords_get n hn lines i hi2] at hres
      exact hres

/-- C3 witness: the chunking theorem instantiated on the six-line FASTA
source with record size 2, width 4 and initial capacity 3. -/
theorem c3_reader_chunking_exact_witness :
    ([[0, 1, 1, 0], [1, 1, 1, 1], [0, 0, 0, 0]] : List (List Rat)).length
        = c1Lines.length / 2 ∧
    ∀ (i : Nat)
      (hi : i < ([[0, 1, 1, 0], [1, 1, 1, 1], [0, 0, 0, 0]] :
          List (List Rat)).length),
      SeqEncoderGC.parseRow defaultGCMap (some 1) ((c1Lines.drop (i * 2)).take 2)
          (List.replicate 4 0) =
        .ok (([[0, 1, 1, 0], [1, 1, 1, 1], [0, 0, 0, 0]] :
            List (List Rat)).get ⟨i, hi⟩) :=
  c3_reader_chunking_exact defaultGCMap (some 1) 2 4 3 c1Lines
    [[0, 1, 1, 0], [1, 1, 1, 1], [0, 0, 0, 0]]
    (by omega) (by omega) rfl

/-- C6 counterexample: each of the three candidate classes, replayed in
isolation on a short line sequence, returns `expects = false` and later
returns `true` again — the two FASTA candidates on a header pair followed
by a sequence line, FastQ on a non-header line followed by a sequence
line. -/
theorem c6_expects_nonmonotone :
    (runExpects (.fastaMultiline .init)
        [str ">a", str ">b", str "ACGT"]).1 = [true, false, true] ∧
    (runExpects (.fastaSingleline .init)
        [str ">a", str ">b", str "ACGT"]).1 = [true, false, true] ∧
    (runExpects (.fastQ .init) [str "x", str "ACGT"]).1 = [false, true] :=
  ⟨rfl, rfl, rfl⟩

/-- C6 amended: the monotone-rejection invariant that does hold is the
`givenUp` one — once a candidate instance has given up, `expects` returns
false for every subsequent line and leaves the instance (hence `givenUp`)
unchanged.  Inside a detector run a candidate is additionally removed from
the live set at its first false, so the detector never consults it
again. -/
theorem c6_givenUp_rejects (c : Cand) (l : Line) (h : c.givenUp = true) :
    c.expects l = (false, c) ∧ (c.expects l).2.givenUp = true := by
  have hmain : c.expects l = (false, c) := by
    cases c with
    | fastaSingleline s =>
      have hg : s.givenUp = true := h
      simp [Cand.expects, FastaSingleline.expects, fastaExpectsCore, hg]
    | fastaMultiline s =>
      have hg : s.givenUp = true := h
      simp [Cand.expects, FastaMultiline.expects, fastaExpectsCore, hg]
    | fastQ s =>
      have hg : s.givenUp = true := h
      simp [Cand.expects, FastQ.expects, hg]
  exact ⟨hmain, by rw [hmain]; exact h⟩

/-- C6 witness: the amended invariant instantiated on a given-up
multi-line FASTA instance and a sequence line it would otherwise
accept. -/
theorem c6_givenUp_rejects_witness :
    Cand.givenUp (.fastaMultiline ⟨false, false, -1⟩) = true ∧
    (Cand.expects (.fastaMultiline ⟨false, false, -1⟩) (str "ACGT") =
        (false, .fastaMultiline ⟨false, false, -1⟩) ∧
      (Cand.expects (.fastaMultiline ⟨false, false, -1⟩)
          (str "ACGT")).2.givenUp = true) :=
  ⟨rfl, c6_givenUp_rejects (.fastaMultiline ⟨false, false, -1⟩)
    (str "ACGT") rfl⟩

/-- C7: for `SeqEncoderGC.parse` on a bound format, when the record has a
sequence line whose characters all translate, the parse succeeds (no
fault) and the written row agrees with the translation on the first
`min len width` cells, keeps the pre-existing row value on every cell at
or beyond the translation length, and equals exactly the first `width`
translated symbols when the sequence is at least as long as the row. -/
theorem c7_gc_parse_frame (m : QMap) (i : Int) (lines : List Line)
    (s : Line) (d : List Rat) (row : List Rat)
    (hget : pyGet lines i = some s) (ht : translate m s = .ok d) :
    SeqEncoderGC.parseRow m (some i) lines row = .ok (writeRow d row) ∧
    (writeRow d row).length = row.length ∧
    (∀ j, j < d.length → j < row.length → (writeRow d row)[j]? = d[j]?) ∧
    (∀ j, d.length ≤ j → (writeRow d row)[j]? = row[j]?) ∧
    (row.length ≤ d.length → writeRow d row = d.take row.length) := by
  refine ⟨?_, ?_, ?_, ?_, ?_⟩
  · simp [SeqEncoderGC.parseRow, hget, ht]
  · simp only [writeRow, List.length_append, List.length_take,
      List.length_drop]
    omega
  · intro j hjd hjr
    rw [writeRow, List.getElem?_append_left
      (by simp only [List.length_take]; omega)]
    exact List.getElem?_take_of_lt hjr
  · intro j hdj
    by_cases hdr : d.length ≤ row.length
    · rw [writeRow, List.getElem?_append_right
        (by simp only [List.length_take]; omega)]
      rw [List.getElem?_drop]
      congr 1
      simp only [List.length_take]
      omega
    · have h1 : (writeRow d row)[j]? = none := by
        apply List.getElem?_eq_none
        simp only [writeRow, List.length_append, List.length_take,
          List.length_drop]
        omega
      have h2 : row[j]? = none := List.getElem?_eq_none (by omega)
      rw [h1, h2]
  · intro hrd
    rw [writeRow, List.drop_eq_nil_of_le hrd, List.append_nil]

/-- C7 witness: the frame theorem instantiated on the record
`[">h", "AC"]` with the default GC map and a pre-filled row of three
9s. -/
theorem c7_gc_parse_frame_witness :
    SeqEncoderGC.parseRow defaultGCMap (some 1) [str ">h", str "AC"]
        [9, 9, 9] = .ok (writeRow [0, 1] [9, 9, 9]) :=
  (c7_gc_parse_frame defaultGCMap 1 [str ">h", str "AC"] (str "AC")
    [0, 1] [9, 9, 9] rfl rfl).1

/-- C9 counterexample: the un-overridden `SeqEncoder.parse` raises the
Python builtin `NotImplementedError`, which is not the
format-implementation fault and not in the `FormatError` hierarchy at
all. -/
theorem c9_encoder_parse_not_format_fault :
    SeqEncoder.parseBase = .error .notImplementedError ∧
    PyError.notImplementedError ≠ PyError.formatImplementationError ∧
    PyError.isFormatError .notImplementedError = false :=
  ⟨rfl, by decide, rfl⟩

/-- C9 amended: `SeqFormat.expects` on the abstract base raises
`FormatImplementationError` (a `FormatError` subclass distinct from
`FormatUnknown`), while the un-overridden `SeqEncoder.parse` raises the
builtin `NotImplementedError` instead. -/
theorem c9_base_methods_raise :
    SeqFormat.expectsBase = .error .formatImplementationError ∧
    PyError.isFormatError .formatImplementationError = true ∧
    PyError.formatImplementationError ≠ PyError.formatUnknown ∧
    SeqEncoder.parseBase = .error .notImplementedError :=
  ⟨rfl, rfl, by decide, rfl⟩

/-- C10: constructing a detector with a forced format whose class has a
fixed item size (and some data field) is already settled before any line
is fed — `detecting` is false and the name, item size, line roles and
countdown are populated from the class — while forcing the multi-line
FASTA format (no fixed item size) raises `FormatError` in the
constructor. -/
theorem c10_forced_format :
    (∀ (c : Cand), (Cand.itemSize c).isSome = true →
        (c.hasSequence || c.hasQuality) = true →
        (SeqFormatDetector.initForced c).map
            (fun d => (d.detecting, d.format, d.itemSize, d.headerLine,
                       d.sequenceLine, d.qualityLine, d.safetyCheck)) =
          .ok (false, some c.name, c.itemSize, some c.HEADER_LINE,
               c.SEQUENCE_LINE, c.QUALITY_LINE, c.itemSize)) ∧
    (∀ (s : FastaState),
        SeqFormatDetector.initForced (.fastaMultiline s) =
          .error .formatError) := by
  constructor
  · intro c hsize hdata
    cases c with
    | fastaSingleline s => rfl
    | fastaMultiline s => simp [Cand.itemSize] at hsize
    | fastQ s => rfl
  · intro s
    rfl

/-- C10 witness: the forced-format theorem instantiated on a fresh
single-line FASTA candidate. -/
theorem c10_forced_format_witness :
    (Cand.itemSize (.fastaSingleline .init)).isSome = true ∧
    (Cand.hasSequence (.fastaSingleline .init) ||
      Cand.hasQuality (.fastaSingleline .init)) = true ∧
    (SeqFormatDetector.initForced (.fastaSingleline .init)).map
        (fun d => (d.detecting, d.format, d.itemSize, d.headerLine,
                   d.sequenceLine, d.qualityLine, d.safetyCheck)) =
      .ok (false, some "FASTA:SINGLELINE", some 2, some 0, some 1, none,
           some 2) :=
  ⟨rfl, rfl, c10_forced_format.1 (.fastaSingleline .init) rfl rfl⟩

theorem setFormat_keeps_map (e : SeqEncoder) (val : SeqFormatDetector)
    (q : QMap) (e2 : SeqEncoder) (hq : e.qualityEncoding = some q)
    (hset : e.setFormat val = .ok e2) : e2.qualityEncoding = some q := by
  unfold SeqEncoder.setFormat at hset
  split at hset
  · cases hset
    exact hq
  · split at hset
    · cases hset
    · split at hset
      · cases hset
      · split at hset
        · cases hset
          exact hq
        · split at hset
          · rename_i hnone
            rw [hq] at hnone
            simp at hnone
          · cases hset
            exact hq

theorem setFormat_adopts_hint (e : SeqEncoder) (val : SeqFormatDetector)
    (e2 : SeqEncoder) (hq : e.qualityEncoding = none)
    (hdet : val.detecting = false) (hset : e.setFormat val = .ok e2) :
    e2.qualityEncoding = val.qualityEncoding := by
  unfold SeqEncoder.setFormat at hset
  split at hset
  · simp_all
  · split at hset
    · cases hset
    · split at hset
      · cases hset
      · split at hset
        · rename_i henc
          cases hset
          rw [henc]
          exact hq
        · rename_i enc henc
          split at hset
          · cases hset
            rw [henc]
          · rename_i hnone
            rw [hq] at hnone
            simp at hnone

theorem detectLoop_settled :
    ∀ (ls : List Line) (f0 f : SeqFormatDetector) (rest : List Line),
      detectLoop f0 ls = some (.ok (f, rest)) → f.detecting = false := by
  intro ls
  induction ls with
  | nil =>
    intro f0 f rest h
    simp [detectLoop] at h
  | cons l ls ih =>
    intro f0 f rest h
    simp only [detectLoop] at h
    cases hf : f0.feed l with
    | error e =>
      rw [hf] at h
      simp at h
    | ok f2 =>
      rw [hf] at h
      have h2 : (if f2.detecting = true then detectLoop f2 ls
                 else some (.ok (f2, ls))) = some (.ok (f, rest)) := h
      by_cases hd : f2.detecting = true
      · rw [if_pos hd] at h2
        exact ih f2 f rest h2
      · rw [if_neg hd] at h2
        simp only [Option.some.injEq, Except.ok.injEq, Prod.mk.injEq] at h2
        rw [← h2.1]
        simpa using hd

/-- C8 amended: binding through the `format` property setter never
replaces an existing encoder quality map (it adopts a hint only when the
encoder has none), but binding through `detectFormat` first clears the
encoder map and then installs whatever the settled detector hints (so the
format hint, even `None`, does replace an existing encoder map on that
path). -/
theorem c8_quality_precedence :
    (∀ (e : SeqEncoder) (val : SeqFormatDetector) (q : QMap)
        (e2 : SeqEncoder), e.qualityEncoding = some q →
        e.setFormat val = .ok e2 → e2.qualityEncoding = some q) ∧
    (∀ (e : SeqEncoder) (val : SeqFormatDetector) (e2 : SeqEncoder),
        e.qualityEncoding = none → val.detecting = false →
        e.setFormat val = .ok e2 →
        e2.qualityEncoding = val.qualityEncoding) ∧
    (∀ (e : SeqEncoder) (f : SeqFormatDetector) (rest : List Line)
        (e2 : SeqEncoder), e.initiated = false →
        detectLoop .init e.detectFeed = some (.ok (f, rest)) →
        e.detectFormat = some (.ok e2) →
        e2.qualityEncoding = f.qualityEncoding) := by
  refine ⟨setFormat_keeps_map, setFormat_adopts_hint, ?_⟩
  intro e f rest e2 hinit hloop hdf
  unfold SeqEncoder.detectFormat at hdf
  rw [if_neg (by simp [hinit])] at hdf
  rw [hloop] at hdf
  simp only [Option.some.injEq] at hdf
  exact setFormat_adopts_hint _ f e2 rfl
    (detectLoop_settled e.detectFeed .init f rest hloop) hdf

/-- An encoder that already owns an explicit quality-translation map and
has buffered one FASTQ-style header line for detection (the remaining
fields are as `reset` leaves them, with the `__init__` defaults for
`useSequence` and `useQuality`). -/
def encoderWithQualityMap : SeqEncoder :=
  { useSequence := true, useQuality := false,
    sequenceEncoding := some defaultGCMap,
    qualityEncoding := some [('A', 5)],
    format := none, formatCompatible := false,
    sequenceLine := none, qualityLine := none, headerLine := none,
    detectFeed := [str "@x"] }

/-- C8 counterexample: an encoder that owns a quality map and then binds
via `detectFormat` (settling on FASTQ after the buffered line) ends up
initiated with its quality map gone — the encoder map is not kept on
this binding path. -/
theorem c8_detectFormat_discards_map :
    encoderWithQualityMap.qualityEncoding = some [('A', 5)] ∧
    (encoderWithQualityMap.detectFormat).map
        (fun r => r.map (fun e => (e.initiated, e.qualityEncoding))) =
      some (.ok (true, none)) :=
  ⟨rfl, rfl⟩

/-- The encoder produced by binding `encoderWithQualityMap` to the settled
single-line FASTA detector through the `format` setter. -/
def c8BoundEncoder : SeqEncoder :=
  { useSequence := true, useQuality := false,
    sequenceEncoding := some defaultGCMap,
    qualityEncoding := some [('A', 5)],
    format := some settledSingleline, formatCompatible := true,
    sequenceLine := some 1, qualityLine := none, headerLine := some 0,
    detectFeed := [str "@x"] }

/-- C8 witness: the setter path instantiated — the encoder with its own
map keeps exactly that map after binding to a settled format. -/
theorem c8_quality_precedence_witness :
    encoderWithQualityMap.qualityEncoding = some [('A', 5)] ∧
    encoderWithQualityMap.setFormat settledSingleline = .ok c8BoundEncoder ∧
    c8BoundEncoder.qualityEncoding = some [('A', 5)] :=
  ⟨rfl, rfl, c8_quality_precedence.1 encoderWithQualityMap settledSingleline
    [('A', 5)] c8BoundEncoder rfl rfl⟩
